import Mathlib

/-!
# SH1107 OLED driver: protocol encoder

A shallow embedding of `components/sh1107/sh1107.cpp`.  Every member function of the
driver becomes a function on `World`: the driver object together with the log of the calls
it has made into its collaborators (`gpio_set_level`, `vTaskDelay`, the SPI device's
`transmit_byte`) and of the reads it has made from the caller's image buffer.

Values that the source takes from headers that are not part of the sources
(`sh1107_config.hpp`, `sh1107_registers.hpp`, `utility.hpp`) are parameters, gathered in
`Constants`, or are modelled from the specification where the text says so.
-/

namespace SH1107

set_option linter.dupNamespace false
set_option linter.unusedVariables false

/-! ## Data model -/

/-- One call made by the driver into a collaborator, or one read of the image buffer. -/
inductive Event where
  | gpio_set_level (gpio_num : Nat) (level : Nat)
  | vTaskDelay (ms : Nat)
  | transmit_byte (byte : Nat)
  | read (index : Nat)
  deriving DecidableEq, Repr

/-- The two members of `enum class ControlPad` that the driver names; the enumeration is
declared in a header that is not among the sources, and the line level of each member is a
field of `Constants`. -/
inductive ControlPad where
  | COMMAND_DATA
  | DISPLAY_DATA
  deriving DecidableEq, Repr

/-- Constants of the headers `sh1107_config.hpp` and `sh1107_registers.hpp`, which are not
among the sources: the screen geometry, the line level of each `ControlPad` member
(`std::to_underlying`), the byte that `std::bit_cast<std::uint8_t>` yields for
`DISPLAY_ON_OFF{.on_off = b}`, and the members of `enum class RegAddress`. -/
structure Constants where
  SCREEN_WIDTH : Nat
  SCREEN_HEIGHT : Nat
  to_underlying : ControlPad → Nat
  DISPLAY_ON_OFF : Bool → Fin 256
  DISPLAY_START_LINE : Fin 256
  CONTRAST_CONTROL : Fin 256
  MULTIPLEX_RATIO : Fin 256
  DISPLAY_OFFSET : Fin 256
  CLOCK_DIVIDE_OSC_FREQ : Fin 256
  CHARGE_PERIOD : Fin 256
  VCOM_DESELECT_LEVEL : Fin 256
  DC_DC_CONTROL_MODE : Fin 256

/-- The record `Config` of `sh1107_config.hpp`.  Each field is a one-byte bit-field struct in
the source; it is carried here as the byte that `std::bit_cast<std::uint8_t>` yields for it. -/
structure Config where
  lower_column_address : Fin 256
  higher_column_address : Fin 256
  page_address : Fin 256
  display_start_line : Fin 256
  contrast_control : Fin 256
  normal_reverse_display : Fin 256
  multiplex_ratio : Fin 256
  display_offset : Fin 256
  clock_divide_osc_freq : Fin 256
  charge_period : Fin 256
  vcom_deselect_level : Fin 256
  dc_dc_control_mode : Fin 256

/-- The data members of `struct SH1107`; `spi_device_` is the handle of the owned device. -/
structure SH1107 where
  initialized_ : Bool
  control_pin_ : Nat
  reset_pin_ : Nat
  spi_device_ : Nat
  deriving DecidableEq, Repr

/-- The driver object and the log of everything it has done so far, oldest event first. -/
structure World where
  self : SH1107
  trace : List Event
  deriving DecidableEq, Repr

/-! ## Collaborators -/

/-- Log one event. -/
def emit (e : Event) (w : World) : World :=
  { w with trace := w.trace ++ [e] }

/-- ESP-IDF `gpio_set_level(gpio_num, level)`. -/
def gpio_set_level (gpio_num level : Nat) (w : World) : World :=
  emit (Event.gpio_set_level gpio_num level) w

/-- FreeRTOS `vTaskDelay(pdMS_TO_TICKS(ms))`; the log keeps the milliseconds. -/
def vTaskDelay (ms : Nat) (w : World) : World :=
  emit (Event.vTaskDelay ms) w

/-- The call `this->spi_device_.transmit_byte(byte)`. -/
def spi_transmit_byte (byte : Nat) (w : World) : World :=
  emit (Event.transmit_byte byte) w

/-- Modelled from the spec: `Utility::reflection` lives in `utility.hpp`, which is not among
the sources.  The specification describes it as reversing the bit order within the byte
(bit 0 and bit 7 swap, bit 1 and bit 6 swap, and so on): bit `k` of the result is bit
`7 - k` of the argument. -/
def reflection (b : Nat) : Nat :=
  (List.range 8).foldl (fun acc k => acc + (b >>> (7 - k)) % 2 * 2 ^ k) 0

/-! ## Driver -/

/-- Member function `SH1107::select_control_pad`. -/
def select_control_pad (k : Constants) (control_pad : ControlPad) (w : World) : World :=
  gpio_set_level w.self.control_pin_ (k.to_underlying control_pad) w

/-- Member function `SH1107::transmit_data`. -/
def transmit_data (k : Constants) (byte : Nat) (w : World) : World :=
  let w := select_control_pad k ControlPad.DISPLAY_DATA w
  spi_transmit_byte byte w

/-- Member function `SH1107::transmit_command`. -/
def transmit_command (k : Constants) (byte : Nat) (w : World) : World :=
  let w := select_control_pad k ControlPad.COMMAND_DATA w
  spi_transmit_byte byte w

/-- Member function `SH1107::write_byte`. -/
def write_byte (k : Constants) (reg_address byte : Nat) (w : World) : World :=
  let w := select_control_pad k ControlPad.COMMAND_DATA w
  let w := spi_transmit_byte reg_address w
  spi_transmit_byte byte w

/-- Member function `SH1107::device_reset`. -/
def device_reset (w : World) : World :=
  let w := gpio_set_level w.self.reset_pin_ 0 w
  let w := vTaskDelay 200 w
  let w := gpio_set_level w.self.reset_pin_ 1 w
  vTaskDelay 200 w

/-- Member function `SH1107::send_lower_column_address_command`. -/
def send_lower_column_address_command (k : Constants) (lower_column_address : Fin 256)
    (w : World) : World :=
  transmit_command k lower_column_address.val w

/-- Member function `SH1107::send_higher_column_address_command`. -/
def send_higher_column_address_command (k : Constants) (higher_column_address : Fin 256)
    (w : World) : World :=
  transmit_command k higher_column_address.val w

/-- Member function `SH1107::send_normal_reverse_display_command`. -/
def send_normal_reverse_display_command (k : Constants) (normal_reverse_display : Fin 256)
    (w : World) : World :=
  transmit_command k normal_reverse_display.val w

/-- Member function `SH1107::send_display_on_off_command`. -/
def send_display_on_off_command (k : Constants) (display_on_off : Fin 256)
    (w : World) : World :=
  transmit_command k display_on_off.val w

/-- Member function `SH1107::send_page_address_command`. -/
def send_page_address_command (k : Constants) (page_address : Fin 256) (w : World) : World :=
  transmit_command k page_address.val w

/-- Member function `SH1107::set_contrast_control_register`. -/
def set_contrast_control_register (k : Constants) (contrast_control : Fin 256)
    (w : World) : World :=
  write_byte k k.CONTRAST_CONTROL.val contrast_control.val w

/-- Member function `SH1107::set_multiplex_ratio_register`. -/
def set_multiplex_ratio_register (k : Constants) (multiplex_ratio : Fin 256)
    (w : World) : World :=
  write_byte k k.MULTIPLEX_RATIO.val multiplex_ratio.val w

/-- Member function `SH1107::set_display_offset_register`. -/
def set_display_offset_register (k : Constants) (display_offset : Fin 256)
    (w : World) : World :=
  write_byte k k.DISPLAY_OFFSET.val display_offset.val w

/-- Member function `SH1107::set_dc_dc_control_mode_register`. -/
def set_dc_dc_control_mode_register (k : Constants) (dc_dc_control_mode : Fin 256)
    (w : World) : World :=
  write_byte k k.DC_DC_CONTROL_MODE.val dc_dc_control_mode.val w

/-- Member function `SH1107::set_clock_divide_osc_freq_register`. -/
def set_clock_divide_osc_freq_register (k : Constants) (display_divide_osc_freq : Fin 256)
    (w : World) : World :=
  write_byte k k.CLOCK_DIVIDE_OSC_FREQ.val display_divide_osc_freq.val w

/-- Member function `SH1107::set_charge_period_register`. -/
def set_charge_period_register (k : Constants) (charge_period : Fin 256)
    (w : World) : World :=
  write_byte k k.CHARGE_PERIOD.val charge_period.val w

/-- Member function `SH1107::set_vcom_deselect_level_register`. -/
def set_vcom_deselect_level_register (k : Constants) (vcom_deselect_level : Fin 256)
    (w : World) : World :=
  write_byte k k.VCOM_DESELECT_LEVEL.val vcom_deselect_level.val w

/-- Member function `SH1107::set_display_start_line_register`. -/
def set_display_start_line_register (k : Constants) (display_start_line : Fin 256)
    (w : World) : World :=
  write_byte k k.DISPLAY_START_LINE.val display_start_line.val w

/-- Member function `SH1107::display_on`. -/
def display_on (k : Constants) (w : World) : World :=
  send_display_on_off_command k (k.DISPLAY_ON_OFF true) w

/-- Member function `SH1107::display_off`. -/
def display_off (k : Constants) (w : World) : World :=
  send_display_on_off_command k (k.DISPLAY_ON_OFF false) w

/-- Member function `SH1107::initialize`; the bare name is a reserved word of Lean. -/
def initialize_ (k : Constants) (config : Config) (w : World) : World :=
  let w := device_reset w
  let w := display_off k w
  let w := send_lower_column_address_command k config.lower_column_address w
  let w := send_higher_column_address_command k config.higher_column_address w
  let w := send_page_address_command k config.page_address w
  let w := set_display_start_line_register k config.display_start_line w
  let w := set_contrast_control_register k config.contrast_control w
  let w := send_normal_reverse_display_command k config.normal_reverse_display w
  let w := set_multiplex_ratio_register k config.multiplex_ratio w
  let w := set_display_offset_register k config.display_offset w
  let w := set_clock_divide_osc_freq_register k config.clock_divide_osc_freq w
  let w := set_charge_period_register k config.charge_period w
  let w := set_vcom_deselect_level_register k config.vcom_deselect_level w
  let w := set_dc_dc_control_mode_register k config.dc_dc_control_mode w
  let w := display_on k w
  { w with self := { w.self with initialized_ := true } }

/-- Member function `SH1107::deinitialize`. -/
def deinitialize (k : Constants) (w : World) : World :=
  let w := device_reset w
  let w := display_off k w
  { w with self := { w.self with initialized_ := false } }

/-- The inner loop of `SH1107::display`, entered with column counter `i` in row `j`:
`for (std::uint8_t i = 0U; i < width; i++)`.  The index `i + j * width` is computed in
`int`, so it does not wrap; the counter is a byte.  A read outside the buffer is undefined
behaviour in the source and gives `none` here. -/
def display_columns (k : Constants) (byte_image : List (Fin 256)) (width : Nat)
    (hw : width < 256) (j i : Nat) (w : World) : Option World :=
  if i < width then
    match byte_image[i + j * width]? with
    | none => none
    | some temp =>
      let w := emit (Event.read (i + j * width)) w
      let temp := reflection temp.val
      let w := transmit_data k temp w
      display_columns k byte_image width hw j ((i + 1) % 256) w
  else
    some w
termination_by width - i
decreasing_by
  all_goals simp_wf
  omega

/-- The argument of the first `transmit_command` of a row in `SH1107::display`: the `int`
expression `0x00 + (column & 0x0f)`, narrowed to `std::uint8_t` at the call. -/
def lower_address_byte (column : Nat) : Nat :=
  (0x00 + (column &&& 0x0f)) % 256

/-- The argument of the second `transmit_command` of a row in `SH1107::display`: the `int`
expression `0x10 + (column >> 4)`, narrowed to `std::uint8_t` at the call. -/
def higher_address_byte (column : Nat) : Nat :=
  (0x10 + (column >>> 4)) % 256

/-- The outer loop of `SH1107::display`, entered with row counter `j`:
`for (std::uint8_t j = 0U; j < height; j++)`, with `column = j`. -/
def display_rows (k : Constants) (byte_image : List (Fin 256)) (width : Nat)
    (hw : width < 256) (height : Nat) (hh : height < 256) (j : Nat) (w : World) :
    Option World :=
  if j < height then
    let column := j
    let w := transmit_command k (lower_address_byte column) w
    let w := transmit_command k (higher_address_byte column) w
    match display_columns k byte_image width hw j 0 w with
    | none => none
    | some w => display_rows k byte_image width hw height hh ((j + 1) % 256) w
  else
    some w
termination_by height - j
decreasing_by
  all_goals simp_wf
  omega

/-- The local `width` of `SH1107::display`, narrowed to `std::uint8_t`. -/
def display_width (k : Constants) : Nat :=
  (if k.SCREEN_WIDTH % 8 = 0 then k.SCREEN_WIDTH / 8 else k.SCREEN_WIDTH / 8 + 1) % 256

/-- The local `height` of `SH1107::display`, narrowed to `std::uint8_t`. -/
def display_height (k : Constants) : Nat :=
  k.SCREEN_HEIGHT % 256

/-- Member function `SH1107::display`; `byte_image` is the caller's buffer and `bytes` the
length argument. -/
def display (k : Constants) (byte_image : List (Fin 256)) (bytes : Nat) (w : World) :
    Option World :=
  let width := display_width k
  let height := display_height k
  let w := transmit_data k 0xb0 w
  display_rows k byte_image width (Nat.mod_lt _ (by decide)) height (Nat.mod_lt _ (by decide)) 0 w

/-! ## Observations on a log -/

/-- The bytes put on the bus by a log, each paired with the level that the line
`control_pin` has while the byte is sent; `level` is the level of the line before the log. -/
def wire (control_pin : Nat) : Nat → List Event → List (Nat × Nat)
  | _, [] => []
  | level, Event.gpio_set_level gpio_num l :: es =>
      wire control_pin (if gpio_num = control_pin then l else level) es
  | level, Event.transmit_byte byte :: es => (level, byte) :: wire control_pin level es
  | level, Event.vTaskDelay _ :: es => wire control_pin level es
  | level, Event.read _ :: es => wire control_pin level es

/-- The level of the line `pin` after a log, when it was `level` before. -/
def line_level (pin : Nat) : Nat → List Event → Nat
  | level, [] => level
  | level, Event.gpio_set_level gpio_num l :: es =>
      line_level pin (if gpio_num = pin then l else level) es
  | level, Event.transmit_byte _ :: es => line_level pin level es
  | level, Event.vTaskDelay _ :: es => line_level pin level es
  | level, Event.read _ :: es => line_level pin level es

/-- The indices of the image buffer read by a log, in the order of the reads. -/
def reads : List Event → List Nat
  | [] => []
  | Event.read index :: es => index :: reads es
  | Event.gpio_set_level _ _ :: es => reads es
  | Event.transmit_byte _ :: es => reads es
  | Event.vTaskDelay _ :: es => reads es

/-- The bytes put on the bus by a log, in order. -/
def transmitted : List Event → List Nat
  | [] => []
  | Event.transmit_byte byte :: es => byte :: transmitted es
  | Event.gpio_set_level _ _ :: es => transmitted es
  | Event.read _ :: es => transmitted es
  | Event.vTaskDelay _ :: es => transmitted es

/-- The events logged between the world `before` and the later world `after`. -/
def emitted (before after : World) : List Event :=
  after.trace.drop before.trace.length

/-- The event of driving the control line of the driver to the command level. -/
def select_command (k : Constants) (self : SH1107) : Event :=
  Event.gpio_set_level self.control_pin_ (k.to_underlying ControlPad.COMMAND_DATA)

/-- The event of driving the control line of the driver to the data level. -/
def select_data (k : Constants) (self : SH1107) : Event :=
  Event.gpio_set_level self.control_pin_ (k.to_underlying ControlPad.DISPLAY_DATA)

/-! ## The log of one frame transfer, written out -/

/-- The events of one pass through the body of the inner loop of `display`. -/
def column_events (k : Constants) (self : SH1107) (byte_image : List (Fin 256))
    (width j i : Nat) : List Event :=
  [Event.read (i + j * width), select_data k self,
   Event.transmit_byte (reflection (byte_image.getD (i + j * width) 0).val)]

/-- The events of one pass through the body of the outer loop of `display`. -/
def row_events (k : Constants) (self : SH1107) (byte_image : List (Fin 256))
    (width j : Nat) : List Event :=
  [select_command k self, Event.transmit_byte (lower_address_byte j),
   select_command k self, Event.transmit_byte (higher_address_byte j)]
  ++ (List.range width).flatMap (column_events k self byte_image width j)

/-- The events of a whole call of `display` that stays inside the buffer. -/
def display_events (k : Constants) (self : SH1107) (byte_image : List (Fin 256)) :
    List Event :=
  [select_data k self, Event.transmit_byte 0xb0]
  ++ (List.range (display_height k)).flatMap
      (row_events k self byte_image (display_width k))

/-! ## The sequences that the specification describes -/

/-- The frame of the specification for `width` bytes by `height` rows: for each row the two
command-mode address bytes `0x00 | (j & 0x0F)` and `0x10 | (j >> 4)`, then the reflected
image bytes of the row in data mode.  Each entry pairs the level of the control line with
the byte sent. -/
def frame_sequence (k : Constants) (byte_image : List (Fin 256)) (width height : Nat) :
    List (Nat × Nat) :=
  (List.range height).flatMap fun j =>
    [(k.to_underlying ControlPad.COMMAND_DATA, 0x00 ||| (j &&& 0x0F)),
     (k.to_underlying ControlPad.COMMAND_DATA, 0x10 ||| (j >>> 4))]
    ++ (List.range width).map fun i =>
      (k.to_underlying ControlPad.DISPLAY_DATA,
        reflection (byte_image.getD (i + j * width) 0).val)

/-- The frame of the specification with a set-page tag `0xB0` in command mode at the head of
every row, as the row-addressing step of the frame transfer is worded. -/
def tagged_frame_sequence (k : Constants) (byte_image : List (Fin 256))
    (width height : Nat) : List (Nat × Nat) :=
  (List.range height).flatMap fun j =>
    [(k.to_underlying ControlPad.COMMAND_DATA, 0xB0),
     (k.to_underlying ControlPad.COMMAND_DATA, 0x00 ||| (j &&& 0x0F)),
     (k.to_underlying ControlPad.COMMAND_DATA, 0x10 ||| (j >>> 4))]
    ++ (List.range width).map fun i =>
      (k.to_underlying ControlPad.DISPLAY_DATA,
        reflection (byte_image.getD (i + j * width) 0).val)

/-! ## Sample values -/

/-- A sample value of the constants: the opcodes of the SH1107 data sheet, command level 0,
data level 1, and the given screen geometry. -/
def sample_constants (SCREEN_WIDTH SCREEN_HEIGHT : Nat) : Constants where
  SCREEN_WIDTH := SCREEN_WIDTH
  SCREEN_HEIGHT := SCREEN_HEIGHT
  to_underlying := fun
    | ControlPad.COMMAND_DATA => 0
    | ControlPad.DISPLAY_DATA => 1
  DISPLAY_ON_OFF := fun on_off => if on_off then 0xAF else 0xAE
  DISPLAY_START_LINE := 0xDC
  CONTRAST_CONTROL := 0x81
  MULTIPLEX_RATIO := 0xA8
  DISPLAY_OFFSET := 0xD3
  CLOCK_DIVIDE_OSC_FREQ := 0xD5
  CHARGE_PERIOD := 0xD9
  VCOM_DESELECT_LEVEL := 0xDB
  DC_DC_CONTROL_MODE := 0xAD

/-- A sample configuration. -/
def sample_config : Config where
  lower_column_address := 0x07
  higher_column_address := 0x13
  page_address := 0xB0
  display_start_line := 0x00
  contrast_control := 0x80
  normal_reverse_display := 0xA6
  multiplex_ratio := 0x7F
  display_offset := 0x60
  clock_divide_osc_freq := 0x51
  charge_period := 0x22
  vcom_deselect_level := 0x35
  dc_dc_control_mode := 0x81

/-- A driver that has not been initialized, with control line 4 and reset line 5, and an
empty log. -/
def sample_world : World :=
  ⟨⟨false, 4, 5, 0⟩, []⟩

/-- A driver that has been initialized, with control line 4 and reset line 5, and a log that
ends with the control line at the data level. -/
def sample_world_initialized : World :=
  ⟨⟨true, 4, 5, 0⟩, [Event.gpio_set_level 4 1, Event.transmit_byte 0x00]⟩

/-! ## Lemmas: the log of each member function -/

theorem emitted_append (w : World) (self : SH1107) (es : List Event) :
    emitted w ⟨self, w.trace ++ es⟩ = es := by
  simp [emitted]

theorem transmit_data_eq (k : Constants) (byte : Nat) (w : World) :
    transmit_data k byte w =
      ⟨w.self, w.trace ++ [select_data k w.self, Event.transmit_byte byte]⟩ := by
  simp [transmit_data, select_control_pad, gpio_set_level, spi_transmit_byte, emit,
    select_data]

theorem transmit_command_eq (k : Constants) (byte : Nat) (w : World) :
    transmit_command k byte w =
      ⟨w.self, w.trace ++ [select_command k w.self, Event.transmit_byte byte]⟩ := by
  simp [transmit_command, select_control_pad, gpio_set_level, spi_transmit_byte, emit,
    select_command]

theorem write_byte_eq (k : Constants) (reg_address byte : Nat) (w : World) :
    write_byte k reg_address byte w =
      ⟨w.self, w.trace ++ [select_command k w.self, Event.transmit_byte reg_address,
        Event.transmit_byte byte]⟩ := by
  simp [write_byte, select_control_pad, gpio_set_level, spi_transmit_byte, emit,
    select_command]

theorem device_reset_eq (w : World) :
    device_reset w =
      ⟨w.self, w.trace ++ [Event.gpio_set_level w.self.reset_pin_ 0, Event.vTaskDelay 200,
        Event.gpio_set_level w.self.reset_pin_ 1, Event.vTaskDelay 200]⟩ := by
  simp [device_reset, gpio_set_level, vTaskDelay, emit]

theorem initialize_eq (k : Constants) (config : Config) (w : World) :
    initialize_ k config w =
      ⟨⟨true, w.self.control_pin_, w.self.reset_pin_, w.self.spi_device_⟩, w.trace ++
       [Event.gpio_set_level w.self.reset_pin_ 0, Event.vTaskDelay 200,
        Event.gpio_set_level w.self.reset_pin_ 1, Event.vTaskDelay 200,
        select_command k w.self, Event.transmit_byte (k.DISPLAY_ON_OFF false).val,
        select_command k w.self, Event.transmit_byte config.lower_column_address.val,
        select_command k w.self, Event.transmit_byte config.higher_column_address.val,
        select_command k w.self, Event.transmit_byte config.page_address.val,
        select_command k w.self, Event.transmit_byte k.DISPLAY_START_LINE.val,
        Event.transmit_byte config.display_start_line.val,
        select_command k w.self, Event.transmit_byte k.CONTRAST_CONTROL.val,
        Event.transmit_byte config.contrast_control.val,
        select_command k w.self, Event.transmit_byte config.normal_reverse_display.val,
        select_command k w.self, Event.transmit_byte k.MULTIPLEX_RATIO.val,
        Event.transmit_byte config.multiplex_ratio.val,
        select_command k w.self, Event.transmit_byte k.DISPLAY_OFFSET.val,
        Event.transmit_byte config.display_offset.val,
        select_command k w.self, Event.transmit_byte k.CLOCK_DIVIDE_OSC_FREQ.val,
        Event.transmit_byte config.clock_divide_osc_freq.val,
        select_command k w.self, Event.transmit_byte k.CHARGE_PERIOD.val,
        Event.transmit_byte config.charge_period.val,
        select_command k w.self, Event.transmit_byte k.VCOM_DESELECT_LEVEL.val,
        Event.transmit_byte config.vcom_deselect_level.val,
        select_command k w.self, Event.transmit_byte k.DC_DC_CONTROL_MODE.val,
        Event.transmit_byte config.dc_dc_control_mode.val,
        select_command k w.self, Event.transmit_byte (k.DISPLAY_ON_OFF true).val]⟩ := by
  simp [initialize_, display_on, display_off, send_display_on_off_command,
    send_lower_column_address_command, send_higher_column_address_command,
    send_page_address_command, send_normal_reverse_display_command,
    set_display_start_line_register, set_contrast_control_register,
    set_multiplex_ratio_register, set_display_offset_register,
    set_clock_divide_osc_freq_register, set_charge_period_register,
    set_vcom_deselect_level_register, set_dc_dc_control_mode_register,
    device_reset_eq, transmit_command_eq, write_byte_eq]

theorem deinitialize_eq (k : Constants) (w : World) :
    deinitialize k w =
      ⟨⟨false, w.self.control_pin_, w.self.reset_pin_, w.self.spi_device_⟩, w.trace ++
       [Event.gpio_set_level w.self.reset_pin_ 0, Event.vTaskDelay 200,
        Event.gpio_set_level w.self.reset_pin_ 1, Event.vTaskDelay 200,
        select_command k w.self, Event.transmit_byte (k.DISPLAY_ON_OFF false).val]⟩ := by
  simp [ deinitialize, display_off, send_display_on_off_command, device_reset_eq,
    transmit_command_eq]

/-! ## Lemmas: the loops of `display` -/

theorem display_columns_some (k : Constants) (byte_image : List (Fin 256)) (width : Nat)
    (hw : width < 256) (j : Nat)
    (hlen : ∀ i, i < width → i + j * width < byte_image.length) :
    ∀ (n i : Nat) (w : World), width - i = n → i ≤ width →
      display_columns k byte_image width hw j i w =
        some ⟨w.self, w.trace ++
          (List.range' i (width - i)).flatMap
            (column_events k w.self byte_image width j)⟩ := by
  intro n
  induction n with
  | zero =>
    intro i w hn hi
    have : ¬ i < width := by omega
    rw [display_columns]
    simp [this, hn]
  | succ n ih =>
    intro i w hn hi
    have hiw : i < width := by omega
    have hb := hlen i hiw
    rw [display_columns]
    have h1 : (i + 1) % 256 = i + 1 := Nat.mod_eq_of_lt (by omega)
    have h2 : width - i = (width - (i + 1)) + 1 := by omega
    simp only [hiw, if_true, List.getElem?_eq_getElem hb, h1]
    rw [ih (i + 1) _ (by omega) (by omega), h2, List.range'_succ]
    simp [transmit_data_eq, emit, column_events, List.getD_eq_getElem?_getD,
      List.getElem?_eq_getElem hb]

theorem display_rows_some (k : Constants) (byte_image : List (Fin 256)) (width : Nat)
    (hw : width < 256) (height : Nat) (hh : height < 256)
    (hlen : width * height ≤ byte_image.length) :
    ∀ (n j : Nat) (w : World), height - j = n → j ≤ height →
      display_rows k byte_image width hw height hh j w =
        some ⟨w.self, w.trace ++
          (List.range' j (height - j)).flatMap
            (row_events k w.self byte_image width)⟩ := by
  intro n
  induction n with
  | zero =>
    intro j w hn hj
    have : ¬ j < height := by omega
    rw [display_rows]
    simp [this, hn]
  | succ n ih =>
    intro j w hn hj
    have hjh : j < height := by omega
    have hrow : ∀ i, i < width → i + j * width < byte_image.length := by
      intro i hi
      have h1 : (j + 1) * width ≤ height * width := Nat.mul_le_mul_right _ hjh
      have h2 : height * width = width * height := Nat.mul_comm _ _
      have h3 : (j + 1) * width = j * width + width := Nat.succ_mul _ _
      omega
    rw [display_rows]
    have h1 : (j + 1) % 256 = j + 1 := Nat.mod_eq_of_lt (by omega)
    have h2 : height - j = (height - (j + 1)) + 1 := by omega
    simp only [hjh, if_true, h1]
    rw [display_columns_some k byte_image width hw j hrow width 0 _ rfl (Nat.zero_le _)]
    simp only []
    rw [ih (j + 1) _ (by omega) (by omega), h2, List.range'_succ]
    simp [transmit_command_eq, row_events, List.range_eq_range']

theorem display_columns_none (k : Constants) (byte_image : List (Fin 256)) (width : Nat)
    (hw : width < 256) (j : Nat) :
    ∀ (n i : Nat) (w : World), width - i = n →
      (∃ c, i ≤ c ∧ c < width ∧ byte_image.length ≤ c + j * width) →
      display_columns k byte_image width hw j i w = none := by
  intro n
  induction n with
  | zero =>
    intro i w hn h
    obtain ⟨c, h1, h2, _⟩ := h
    omega
  | succ n ih =>
    intro i w hn h
    obtain ⟨c, h1, h2, h3⟩ := h
    have hiw : i < width := by omega
    rw [display_columns]
    simp only [hiw, if_true]
    cases hget : byte_image[i + j * width]? with
    | none => rfl
    | some temp =>
      have hb : i + j * width < byte_image.length := by
        rcases Nat.lt_or_ge (i + j * width) byte_image.length with h | h
        · exact h
        · rw [List.getElem?_eq_none h] at hget
          cases hget
      have hlt : (i + 1) % 256 = i + 1 := Nat.mod_eq_of_lt (by omega)
      simp only [hlt]
      exact ih (i + 1) _ (by omega) ⟨c, by omega, h2, h3⟩

theorem display_rows_none (k : Constants) (byte_image : List (Fin 256)) (width : Nat)
    (hw : width < 256) (height : Nat) (hh : height < 256)
    (hlen : byte_image.length < width * height) :
    ∀ (n j : Nat) (w : World), height - j = n → j < height →
      display_rows k byte_image width hw height hh j w = none := by
  intro n
  induction n with
  | zero =>
    intro j w hn hj
    omega
  | succ n ih =>
    intro j w hn hj
    have hlt : (j + 1) % 256 = j + 1 := Nat.mod_eq_of_lt (by omega)
    rw [display_rows]
    simp only [hj, if_true, hlt]
    cases hcol : display_columns k byte_image width hw j 0
        (transmit_command k (higher_address_byte j)
          (transmit_command k (lower_address_byte j) w)) with
    | none => rfl
    | some next =>
      simp only []
      rcases Nat.lt_or_ge (j + 1) height with h | h
      · exact ih (j + 1) _ (by omega) h
      · exfalso
        have hje : j + 1 = height := by omega
        have hwpos : 0 < width := by
          rcases Nat.eq_zero_or_pos width with h0 | h0
          · rw [h0] at hlen; simp at hlen
          · exact h0
        have hnone := display_columns_none k byte_image width hw j width 0
          (transmit_command k (higher_address_byte j)
            (transmit_command k (lower_address_byte j) w)) rfl
          ⟨width - 1, Nat.zero_le _, by omega, by
            have h3 : width * height = width * j + width := by
              rw [← hje]; exact Nat.mul_succ _ _
            have h4 : width * j = j * width := Nat.mul_comm _ _
            omega⟩
        rw [hnone] at hcol
        cases hcol

theorem display_some (k : Constants) (byte_image : List (Fin 256)) (bytes : Nat) (w : World)
    (hlen : display_width k * display_height k ≤ byte_image.length) :
    display k byte_image bytes w =
      some ⟨w.self, w.trace ++ display_events k w.self byte_image⟩ := by
  unfold display
  simp only []
  rw [display_rows_some k byte_image _ _ _ _ hlen _ 0 _ rfl (Nat.zero_le _)]
  simp [transmit_data_eq, display_events, List.range_eq_range']

theorem display_none (k : Constants) (byte_image : List (Fin 256)) (bytes : Nat) (w : World)
    (hlen : byte_image.length < display_width k * display_height k) :
    display k byte_image bytes w = none := by
  unfold display
  simp only []
  have hpos : 0 < display_height k := by
    rcases Nat.eq_zero_or_pos (display_height k) with h0 | h0
    · rw [h0] at hlen; simp at hlen
    · exact h0
  exact display_rows_none k byte_image _ _ _ _ hlen _ 0 _ rfl hpos

/-! ## Lemmas: observations on the written-out logs -/

theorem wire_append (p : Nat) (a b : List Event) :
    ∀ l, wire p l (a ++ b) = wire p l a ++ wire p (line_level p l a) b := by
  induction a with
  | nil => intro l; simp [wire, line_level]
  | cons e es ih =>
    intro l
    cases e <;> simp [wire, line_level, ih]

theorem reads_append (a b : List Event) : reads (a ++ b) = reads a ++ reads b := by
  induction a with
  | nil => simp [reads]
  | cons e es ih => cases e <;> simp [reads, ih]

theorem wire_flatMap {α : Type} (p : Nat) (f : α → List Event) (g : α → List (Nat × Nat))
    (h : ∀ x l, wire p l (f x) = g x) :
    ∀ (xs : List α) (l : Nat), wire p l (xs.flatMap f) = xs.flatMap g := by
  intro xs
  induction xs with
  | nil => intro l; simp [wire]
  | cons x xs ih =>
    intro l
    simp [List.flatMap_cons, wire_append, h, ih]

theorem reads_flatMap {α : Type} (f : α → List Event) (xs : List α) :
    reads (xs.flatMap f) = xs.flatMap fun x => reads (f x) := by
  induction xs with
  | nil => simp [reads]
  | cons x xs ih => simp [List.flatMap_cons, reads_append, ih]

theorem flatMap_single {α β : Type} (g : α → β) (xs : List α) :
    (xs.flatMap fun x => [g x]) = xs.map g := by
  induction xs with
  | nil => rfl
  | cons x xs ih => rw [List.flatMap_cons, ih]; rfl

theorem wire_column_events (k : Constants) (self : SH1107) (byte_image : List (Fin 256))
    (width j i l : Nat) :
    wire self.control_pin_ l (column_events k self byte_image width j i) =
      [(k.to_underlying ControlPad.DISPLAY_DATA,
        reflection (byte_image.getD (i + j * width) 0).val)] := by
  simp [column_events, select_data, wire]

theorem wire_columns (k : Constants) (self : SH1107) (byte_image : List (Fin 256))
    (width j : Nat) (xs : List Nat) (l : Nat) :
    wire self.control_pin_ l (xs.flatMap (column_events k self byte_image width j)) =
      xs.map fun i => (k.to_underlying ControlPad.DISPLAY_DATA,
        reflection (byte_image.getD (i + j * width) 0).val) := by
  rw [wire_flatMap _ _ _ (fun i l => wire_column_events k self byte_image width j i l)]
  exact flatMap_single _ xs

theorem wire_row_events (k : Constants) (self : SH1107) (byte_image : List (Fin 256))
    (width j l : Nat) :
    wire self.control_pin_ l (row_events k self byte_image width j) =
      [(k.to_underlying ControlPad.COMMAND_DATA, lower_address_byte j),
       (k.to_underlying ControlPad.COMMAND_DATA, higher_address_byte j)]
      ++ (List.range width).map fun i => (k.to_underlying ControlPad.DISPLAY_DATA,
        reflection (byte_image.getD (i + j * width) 0).val) := by
  rw [row_events, wire_append, wire_columns]
  simp [wire, select_command]

theorem wire_display_events (k : Constants) (self : SH1107) (byte_image : List (Fin 256))
    (l : Nat) :
    wire self.control_pin_ l (display_events k self byte_image) =
      (k.to_underlying ControlPad.DISPLAY_DATA, 0xb0) ::
        (List.range (display_height k)).flatMap fun j =>
          [(k.to_underlying ControlPad.COMMAND_DATA, lower_address_byte j),
           (k.to_underlying ControlPad.COMMAND_DATA, higher_address_byte j)]
          ++ (List.range (display_width k)).map fun i =>
            (k.to_underlying ControlPad.DISPLAY_DATA,
              reflection (byte_image.getD (i + j * display_width k) 0).val) := by
  rw [display_events, wire_append,
    wire_flatMap _ _ _ (fun j l => wire_row_events k self byte_image (display_width k) j l)]
  simp [wire, select_data]

theorem reads_row_events (k : Constants) (self : SH1107) (byte_image : List (Fin 256))
    (width j : Nat) :
    reads (row_events k self byte_image width j) =
      (List.range width).map fun i => i + j * width := by
  rw [row_events, reads_append, reads_flatMap]
  simp [reads, column_events, select_command, select_data]
  exact flatMap_single _ _

theorem range_rows (width : Nat) :
    ∀ height,
      ((List.range height).flatMap fun j => (List.range width).map fun i => i + j * width)
        = List.range (width * height) := by
  intro height
  induction height with
  | zero => simp
  | succ n ih =>
    rw [List.range_succ, List.flatMap_append, ih, Nat.mul_succ, List.range_add]
    simp [Nat.mul_comm, Nat.add_comm]

theorem reads_display_events (k : Constants) (self : SH1107)
    (byte_image : List (Fin 256)) :
    reads (display_events k self byte_image) =
      List.range (display_width k * display_height k) := by
  have h : (fun j => reads (row_events k self byte_image (display_width k) j)) =
      fun j => (List.range (display_width k)).map fun i => i + j * display_width k :=
    funext fun j => reads_row_events k self byte_image (display_width k) j
  rw [display_events, reads_append, reads_flatMap, h, range_rows]
  rfl

/-! ## Lemmas: bytes -/

set_option maxRecDepth 100000 in
theorem lower_address_byte_fin : ∀ j : Fin 256,
    lower_address_byte j.val = 0x00 ||| (j.val &&& 0x0F) := by
  decide

set_option maxRecDepth 100000 in
theorem higher_address_byte_fin : ∀ j : Fin 256,
    higher_address_byte j.val = 0x10 ||| (j.val >>> 4) := by
  decide

/-! ## Lemmas: the frame of the specification -/

theorem display_width_eq (k : Constants) (hW : (k.SCREEN_WIDTH + 7) / 8 < 256) :
    display_width k = (k.SCREEN_WIDTH + 7) / 8 := by
  unfold display_width
  split <;> omega

theorem display_height_eq (k : Constants) (hH : k.SCREEN_HEIGHT < 256) :
    display_height k = k.SCREEN_HEIGHT :=
  Nat.mod_eq_of_lt hH

theorem lower_address_byte_eq (j : Nat) (hj : j < 256) :
    lower_address_byte j = 0x00 ||| (j &&& 0x0F) :=
  lower_address_byte_fin ⟨j, hj⟩

theorem higher_address_byte_eq (j : Nat) (hj : j < 256) :
    higher_address_byte j = 0x10 ||| (j >>> 4) :=
  higher_address_byte_fin ⟨j, hj⟩

theorem wire_display_events_frame (k : Constants) (self : SH1107)
    (byte_image : List (Fin 256)) (l : Nat) :
    wire self.control_pin_ l (display_events k self byte_image) =
      (k.to_underlying ControlPad.DISPLAY_DATA, 0xB0) ::
        frame_sequence k byte_image (display_width k) (display_height k) := by
  rw [wire_display_events, frame_sequence]
  congr 1
  apply List.flatMap_congr
  intro j hj
  have hj256 : j < 256 :=
    Nat.lt_trans (List.mem_range.mp hj) (Nat.mod_lt _ (by decide))
  rw [lower_address_byte_eq j hj256, higher_address_byte_eq j hj256]

theorem filter_flatMap {α β : Type} (p : β → Bool) (f : α → List β) (xs : List α) :
    (xs.flatMap f).filter p = xs.flatMap fun x => (f x).filter p := by
  induction xs with
  | nil => rfl
  | cons x xs ih => simp [List.flatMap_cons, List.filter_append, ih]

theorem frame_sequence_commands (k : Constants) (byte_image : List (Fin 256))
    (width height : Nat)
    (hne : k.to_underlying ControlPad.COMMAND_DATA ≠ k.to_underlying ControlPad.DISPLAY_DATA) :
    (frame_sequence k byte_image width height).filter
        (fun x => decide (x.1 = k.to_underlying ControlPad.COMMAND_DATA)) =
      (List.range height).flatMap fun j =>
        [(k.to_underlying ControlPad.COMMAND_DATA, 0x00 ||| (j &&& 0x0F)),
         (k.to_underlying ControlPad.COMMAND_DATA, 0x10 ||| (j >>> 4))] := by
  rw [frame_sequence, filter_flatMap]
  apply List.flatMap_congr
  intro j _
  rw [List.filter_append]
  have hdata : ((List.range width).map fun i =>
      (k.to_underlying ControlPad.DISPLAY_DATA,
        reflection (byte_image.getD (i + j * width) 0).val)).filter
        (fun x => decide (x.1 = k.to_underlying ControlPad.COMMAND_DATA)) = [] := by
    rw [List.filter_eq_nil_iff]
    intro x hx
    obtain ⟨i, _, rfl⟩ := List.mem_map.mp hx
    simpa using fun h => hne h.symm
  rw [hdata]
  simp

theorem index_in_frame (width height i j : Nat) (hi : i < width) (hj : j < height) :
    i + j * width < width * height := by
  have h1 : (j + 1) * width ≤ height * width := Nat.mul_le_mul_right _ hj
  have h2 : height * width = width * height := Nat.mul_comm _ _
  have h3 : (j + 1) * width = j * width + width := Nat.succ_mul _ _
  omega

theorem display_events_congr (k : Constants) (self : SH1107) (a b : List (Fin 256))
    (hag : a.take (display_width k * display_height k) =
      b.take (display_width k * display_height k)) :
    display_events k self a = display_events k self b := by
  unfold display_events
  congr 1
  apply List.flatMap_congr
  intro j hj
  unfold row_events
  congr 1
  apply List.flatMap_congr
  intro i hi
  have hidx := index_in_frame _ _ i j (List.mem_range.mp hi) (List.mem_range.mp hj)
  have hget : a[i + j * display_width k]? = b[i + j * display_width k]? := by
    rw [← List.getElem?_take_of_lt hidx, hag, List.getElem?_take_of_lt hidx]
  simp [column_events, List.getD_eq_getElem?_getD, hget]

theorem display_events_pin (k : Constants) (self1 self2 : SH1107)
    (byte_image : List (Fin 256)) (hpin : self1.control_pin_ = self2.control_pin_) :
    display_events k self1 byte_image = display_events k self2 byte_image := by
  have hcol : column_events k self1 byte_image = column_events k self2 byte_image := by
    funext width j i
    simp [column_events, select_data, hpin]
  have hrow : row_events k self1 byte_image = row_events k self2 byte_image := by
    funext width j
    simp [row_events, select_command, hpin, hcol]
  simp [display_events, select_data, hpin, hrow]

/-! ## Initialization and teardown -/

/-- C1. For every configuration, `initialize` emits exactly this log: the reset sequence
(reset line low, 200 ms delay, reset line high, 200 ms delay), the display-off command, the
twelve configuration writes in the order lower column address, higher column address, page
address, display start line, contrast, normal/reverse display, multiplex ratio, display
offset, clock divide / oscillator frequency, charge period, VCOM deselect level, DC-DC
control mode, and the display-on command.  So display-off is the first transmitted byte and
display-on the last one, with every configuration byte in between; the earlier log is kept
as it was, and `initialized_` is true afterwards. -/
theorem initialize_event_trace (k : Constants) (config : Config) (w : World) :
    emitted w (initialize_ k config w) =
      [Event.gpio_set_level w.self.reset_pin_ 0, Event.vTaskDelay 200,
       Event.gpio_set_level w.self.reset_pin_ 1, Event.vTaskDelay 200,
       select_command k w.self, Event.transmit_byte (k.DISPLAY_ON_OFF false).val,
       select_command k w.self, Event.transmit_byte config.lower_column_address.val,
       select_command k w.self, Event.transmit_byte config.higher_column_address.val,
       select_command k w.self, Event.transmit_byte config.page_address.val,
       select_command k w.self, Event.transmit_byte k.DISPLAY_START_LINE.val,
       Event.transmit_byte config.display_start_line.val,
       select_command k w.self, Event.transmit_byte k.CONTRAST_CONTROL.val,
       Event.transmit_byte config.contrast_control.val,
       select_command k w.self, Event.transmit_byte config.normal_reverse_display.val,
       select_command k w.self, Event.transmit_byte k.MULTIPLEX_RATIO.val,
       Event.transmit_byte config.multiplex_ratio.val,
       select_command k w.self, Event.transmit_byte k.DISPLAY_OFFSET.val,
       Event.transmit_byte config.display_offset.val,
       select_command k w.self, Event.transmit_byte k.CLOCK_DIVIDE_OSC_FREQ.val,
       Event.transmit_byte config.clock_divide_osc_freq.val,
       select_command k w.self, Event.transmit_byte k.CHARGE_PERIOD.val,
       Event.transmit_byte config.charge_period.val,
       select_command k w.self, Event.transmit_byte k.VCOM_DESELECT_LEVEL.val,
       Event.transmit_byte config.vcom_deselect_level.val,
       select_command k w.self, Event.transmit_byte k.DC_DC_CONTROL_MODE.val,
       Event.transmit_byte config.dc_dc_control_mode.val,
       select_command k w.self, Event.transmit_byte (k.DISPLAY_ON_OFF true).val] ∧
    transmitted (emitted w (initialize_ k config w)) =
      [(k.DISPLAY_ON_OFF false).val,
       config.lower_column_address.val, config.higher_column_address.val,
       config.page_address.val,
       k.DISPLAY_START_LINE.val, config.display_start_line.val,
       k.CONTRAST_CONTROL.val, config.contrast_control.val,
       config.normal_reverse_display.val,
       k.MULTIPLEX_RATIO.val, config.multiplex_ratio.val,
       k.DISPLAY_OFFSET.val, config.display_offset.val,
       k.CLOCK_DIVIDE_OSC_FREQ.val, config.clock_divide_osc_freq.val,
       k.CHARGE_PERIOD.val, config.charge_period.val,
       k.VCOM_DESELECT_LEVEL.val, config.vcom_deselect_level.val,
       k.DC_DC_CONTROL_MODE.val, config.dc_dc_control_mode.val,
       (k.DISPLAY_ON_OFF true).val] ∧
    (initialize_ k config w).trace = w.trace ++ emitted w (initialize_ k config w) ∧
    (initialize_ k config w).self.initialized_ = true := by
  rw [initialize_eq, emitted_append]
  simp [transmitted, select_command]

/-- C4, at a concrete input: with the sample constants and the sample configuration the
write of the lower column address puts a single byte on the bus, not an address byte and a
value byte, and `initialize` transmits 22 bytes in all, not 26. -/
theorem initialize_single_byte_writes :
    transmitted (emitted sample_world
      (send_lower_column_address_command (sample_constants 64 128)
        sample_config.lower_column_address sample_world)) = [0x07] ∧
    (transmitted (emitted sample_world
      (initialize_ (sample_constants 64 128) sample_config sample_world))).length = 22 ∧
    (transmitted (emitted sample_world
      (initialize_ (sample_constants 64 128) sample_config sample_world))).length ≠ 26 := by
  decide

/-- C4, amended. For every configuration, eight of the twelve configuration writes of
`initialize` (display start line, contrast, multiplex ratio, display offset, clock divide /
oscillator frequency, charge period, VCOM deselect level, DC-DC control mode) are two-byte
transactions, the address byte of the register followed by the value byte, and the other four
(lower column address, higher column address, page address, normal/reverse display) are
single command bytes; `initialize` transmits these 20 configuration bytes between
display-off and display-on, 22 bytes in all. -/
theorem initialize_write_sizes (k : Constants) (config : Config) (w : World) :
    transmitted (emitted w (send_lower_column_address_command k config.lower_column_address w))
      = [config.lower_column_address.val] ∧
    transmitted (emitted w
        (send_higher_column_address_command k config.higher_column_address w))
      = [config.higher_column_address.val] ∧
    transmitted (emitted w (send_page_address_command k config.page_address w))
      = [config.page_address.val] ∧
    transmitted (emitted w (set_display_start_line_register k config.display_start_line w))
      = [k.DISPLAY_START_LINE.val, config.display_start_line.val] ∧
    transmitted (emitted w (set_contrast_control_register k config.contrast_control w))
      = [k.CONTRAST_CONTROL.val, config.contrast_control.val] ∧
    transmitted (emitted w
        (send_normal_reverse_display_command k config.normal_reverse_display w))
      = [config.normal_reverse_display.val] ∧
    transmitted (emitted w (set_multiplex_ratio_register k config.multiplex_ratio w))
      = [k.MULTIPLEX_RATIO.val, config.multiplex_ratio.val] ∧
    transmitted (emitted w (set_display_offset_register k config.display_offset w))
      = [k.DISPLAY_OFFSET.val, config.display_offset.val] ∧
    transmitted (emitted w
        (set_clock_divide_osc_freq_register k config.clock_divide_osc_freq w))
      = [k.CLOCK_DIVIDE_OSC_FREQ.val, config.clock_divide_osc_freq.val] ∧
    transmitted (emitted w (set_charge_period_register k config.charge_period w))
      = [k.CHARGE_PERIOD.val, config.charge_period.val] ∧
    transmitted (emitted w (set_vcom_deselect_level_register k config.vcom_deselect_level w))
      = [k.VCOM_DESELECT_LEVEL.val, config.vcom_deselect_level.val] ∧
    transmitted (emitted w (set_dc_dc_control_mode_register k config.dc_dc_control_mode w))
      = [k.DC_DC_CONTROL_MODE.val, config.dc_dc_control_mode.val] ∧
    transmitted (emitted w (initialize_ k config w)) =
      [(k.DISPLAY_ON_OFF false).val]
      ++ [config.lower_column_address.val]
      ++ [config.higher_column_address.val]
      ++ [config.page_address.val]
      ++ [k.DISPLAY_START_LINE.val, config.display_start_line.val]
      ++ [k.CONTRAST_CONTROL.val, config.contrast_control.val]
      ++ [config.normal_reverse_display.val]
      ++ [k.MULTIPLEX_RATIO.val, config.multiplex_ratio.val]
      ++ [k.DISPLAY_OFFSET.val, config.display_offset.val]
      ++ [k.CLOCK_DIVIDE_OSC_FREQ.val, config.clock_divide_osc_freq.val]
      ++ [k.CHARGE_PERIOD.val, config.charge_period.val]
      ++ [k.VCOM_DESELECT_LEVEL.val, config.vcom_deselect_level.val]
      ++ [k.DC_DC_CONTROL_MODE.val, config.dc_dc_control_mode.val]
      ++ [(k.DISPLAY_ON_OFF true).val] ∧
    (transmitted (emitted w (initialize_ k config w))).length = 22 := by
  rw [initialize_eq]
  simp only [send_lower_column_address_command, send_higher_column_address_command,
    send_page_address_command, send_normal_reverse_display_command,
    set_display_start_line_register, set_contrast_control_register,
    set_multiplex_ratio_register, set_display_offset_register,
    set_clock_divide_osc_freq_register, set_charge_period_register,
    set_vcom_deselect_level_register, set_dc_dc_control_mode_register,
    transmit_command_eq, write_byte_eq, emitted_append]
  simp [transmitted, select_command]

/-- C6. Whatever the driver state and the earlier log (so whatever the levels of the control
and reset lines), `deinitialize` emits the same six events: reset line low, 200 ms delay,
reset line high, 200 ms delay, control line to the command level, the display-off byte; the
byte goes out at the command level, and `initialized_` is false afterwards.  A second call
right after the first emits the same six events again, and leaves the driver object and the
level of every line as the first call left them. -/
theorem deinitialize_twice (k : Constants) (w : World) :
    emitted w ( deinitialize k w) =
      [Event.gpio_set_level w.self.reset_pin_ 0, Event.vTaskDelay 200,
       Event.gpio_set_level w.self.reset_pin_ 1, Event.vTaskDelay 200,
       select_command k w.self, Event.transmit_byte (k.DISPLAY_ON_OFF false).val] ∧
    ( deinitialize k w).trace = w.trace ++ emitted w ( deinitialize k w) ∧
    (∀ level, wire w.self.control_pin_ level (emitted w ( deinitialize k w)) =
      [(k.to_underlying ControlPad.COMMAND_DATA, (k.DISPLAY_ON_OFF false).val)]) ∧
    ( deinitialize k w).self.initialized_ = false ∧
    emitted ( deinitialize k w) ( deinitialize k ( deinitialize k w)) =
      emitted w ( deinitialize k w) ∧
    ( deinitialize k ( deinitialize k w)).trace =
      (w.trace ++ emitted w ( deinitialize k w)) ++ emitted w ( deinitialize k w) ∧
    ( deinitialize k ( deinitialize k w)).self = ( deinitialize k w).self ∧
    (∀ pin level,
      line_level pin level (emitted w ( deinitialize k ( deinitialize k w))) =
        line_level pin level (emitted w ( deinitialize k w))) := by
  have h2 : deinitialize k ( deinitialize k w) =
      ⟨⟨false, w.self.control_pin_, w.self.reset_pin_, w.self.spi_device_⟩, w.trace ++
        ([Event.gpio_set_level w.self.reset_pin_ 0, Event.vTaskDelay 200,
          Event.gpio_set_level w.self.reset_pin_ 1, Event.vTaskDelay 200,
          select_command k w.self, Event.transmit_byte (k.DISPLAY_ON_OFF false).val] ++
         [Event.gpio_set_level w.self.reset_pin_ 0, Event.vTaskDelay 200,
          Event.gpio_set_level w.self.reset_pin_ 1, Event.vTaskDelay 200,
          select_command k w.self, Event.transmit_byte (k.DISPLAY_ON_OFF false).val])⟩ := by
    rw [deinitialize_eq k ( deinitialize k w), deinitialize_eq k w]
    simp [select_command]
  have h3 : emitted ( deinitialize k w) ( deinitialize k ( deinitialize k w)) =
      [Event.gpio_set_level w.self.reset_pin_ 0, Event.vTaskDelay 200,
       Event.gpio_set_level w.self.reset_pin_ 1, Event.vTaskDelay 200,
       select_command k w.self, Event.transmit_byte (k.DISPLAY_ON_OFF false).val] := by
    rw [deinitialize_eq k ( deinitialize k w), emitted_append, deinitialize_eq k w]
    rfl
  rw [h3, h2, emitted_append, deinitialize_eq, emitted_append]
  refine ⟨rfl, rfl, ?_, rfl, rfl, by simp, rfl, ?_⟩
  · intro level
    simp [wire, select_command]
  · intro pin level
    simp only [select_command, line_level, List.cons_append, List.nil_append]
    by_cases h1 : w.self.reset_pin_ = pin <;> by_cases h2 : w.self.control_pin_ = pin <;>
      simp [h1, h2]

/-- C10. For every configuration and every earlier level of the control line, each byte that
`initialize` and `deinitialize` transmit goes out while the control line is at the command
level.  The reason is local: `transmit_command` and `write_byte` both drive the line to
`COMMAND_DATA` before their first byte, and `write_byte` sends the value byte right after
the address byte with no event in between. -/
theorem initialize_command_mode (k : Constants) (config : Config) (w : World)
    (level : Nat) :
    (wire w.self.control_pin_ level (emitted w (initialize_ k config w))).map Prod.fst =
      List.replicate 22 (k.to_underlying ControlPad.COMMAND_DATA) ∧
    (wire w.self.control_pin_ level (emitted w (initialize_ k config w))).map Prod.snd =
      transmitted (emitted w (initialize_ k config w)) ∧
    (wire w.self.control_pin_ level (emitted w ( deinitialize k w))).map Prod.fst =
      [k.to_underlying ControlPad.COMMAND_DATA] ∧
    (wire w.self.control_pin_ level (emitted w ( deinitialize k w))).map Prod.snd =
      transmitted (emitted w ( deinitialize k w)) ∧
    (∀ byte, emitted w (transmit_command k byte w) =
      [Event.gpio_set_level w.self.control_pin_ (k.to_underlying ControlPad.COMMAND_DATA),
       Event.transmit_byte byte]) ∧
    (∀ reg_address byte, emitted w (write_byte k reg_address byte w) =
      [Event.gpio_set_level w.self.control_pin_ (k.to_underlying ControlPad.COMMAND_DATA),
       Event.transmit_byte reg_address, Event.transmit_byte byte]) := by
  rw [initialize_eq, deinitialize_eq, emitted_append, emitted_append]
  refine ⟨?_, ?_, ?_, ?_, ?_, ?_⟩
  · simp [wire, select_command, List.replicate]
  · simp [wire, select_command, transmitted]
  · simp [wire, select_command]
  · simp [wire, select_command, transmitted]
  · intro byte
    rw [transmit_command_eq, emitted_append]
    rfl
  · intro reg_address byte
    rw [write_byte_eq, emitted_append]
    rfl

/-! ## Frame transfer -/

/-- C2, at a concrete input: for a frame one byte wide and two rows high with the image
`[0b10000000, 0b00000001]`, `display` puts seven bytes on the bus, the first of them the
byte `0xB0`, and not the six bytes of the row-by-row frame of the specification. -/
theorem display_sends_tag_before_rows :
    (display (sample_constants 8 2) [0x80, 0x01] 2 sample_world).map
        (fun after => wire 4 0 (emitted sample_world after)) =
      some [(1, 0xB0), (0, 0x00), (0, 0x10), (1, 0x01), (0, 0x01), (0, 0x10), (1, 0x80)] ∧
    (display (sample_constants 8 2) [0x80, 0x01] 2 sample_world).map
        (fun after => wire 4 0 (emitted sample_world after)) ≠
      some (frame_sequence (sample_constants 8 2) [0x80, 0x01] 1 2) := by
  rw [display_some _ _ _ _ (by decide)]
  decide

/-- C2, amended. For every frame geometry with `width = ceil(SCREEN_WIDTH / 8)` and
`height = SCREEN_HEIGHT` both fitting in a byte, and every image of at least
`width * height` bytes, `display` returns, and what it transmits is the set-page tag
`0xB0` once, followed for each row `j = 0, ..., height - 1` in increasing order by the
command-mode byte `0x00 | (j & 0x0F)`, the command-mode byte `0x10 | (j >> 4)`, and the
`width` data-mode bytes `reflect(image[i + j * width])` for `i = 0, ..., width - 1`.  The
command-mode bytes that follow the tag are exactly these `2 * height` address bytes. -/
theorem display_frame_sequence (k : Constants) (byte_image : List (Fin 256)) (bytes : Nat)
    (w : World) (level : Nat)
    (hW : (k.SCREEN_WIDTH + 7) / 8 < 256) (hH : k.SCREEN_HEIGHT < 256)
    (hlen : (k.SCREEN_WIDTH + 7) / 8 * k.SCREEN_HEIGHT ≤ byte_image.length) :
    ∃ after tag_level, display k byte_image bytes w = some after ∧
      wire w.self.control_pin_ level (emitted w after) =
        (tag_level, 0xB0) ::
          frame_sequence k byte_image ((k.SCREEN_WIDTH + 7) / 8) k.SCREEN_HEIGHT ∧
      (k.to_underlying ControlPad.COMMAND_DATA ≠ k.to_underlying ControlPad.DISPLAY_DATA →
        (frame_sequence k byte_image ((k.SCREEN_WIDTH + 7) / 8) k.SCREEN_HEIGHT).filter
            (fun x => decide (x.1 = k.to_underlying ControlPad.COMMAND_DATA)) =
          (List.range k.SCREEN_HEIGHT).flatMap fun j =>
            [(k.to_underlying ControlPad.COMMAND_DATA, 0x00 ||| (j &&& 0x0F)),
             (k.to_underlying ControlPad.COMMAND_DATA, 0x10 ||| (j >>> 4))]) := by
  have hw := display_width_eq k hW
  have hh := display_height_eq k hH
  refine ⟨_, k.to_underlying ControlPad.DISPLAY_DATA,
    display_some k byte_image bytes w (by rw [hw, hh]; exact hlen), ?_,
    frame_sequence_commands k byte_image _ _⟩
  rw [emitted_append, wire_display_events_frame, hw, hh]

/-- C2, amended, at the frame of the specification's example: one byte wide, two rows,
image `[0b10000000, 0b00000001]`. -/
theorem display_frame_sequence_witness :
    ∃ after tag_level, display (sample_constants 8 2) [0x80, 0x01] 2 sample_world = some after ∧
      wire 4 0 (emitted sample_world after) =
        [(tag_level, 0xB0), (0, 0x00), (0, 0x10), (1, 0x01), (0, 0x01), (0, 0x10), (1, 0x80)] := by
  obtain ⟨after, tag_level, h1, h2, _⟩ :=
    display_frame_sequence (sample_constants 8 2) [0x80, 0x01] 2 sample_world 0
      (by decide) (by decide) (by decide)
  exact ⟨after, tag_level, h1, h2⟩

/-- C3, at a concrete input: for a frame one byte wide and two rows high, `display` sends no
byte `0xB0` at the command level, where two are claimed, one for each row; what it puts on
the bus is not the frame with a command-mode tag at the head of every row. -/
theorem display_no_tag_per_row :
    (display (sample_constants 8 2) [0x80, 0x01] 2 sample_world).map
        (fun after => (wire 4 0 (emitted sample_world after)).count
          ((sample_constants 8 2).to_underlying ControlPad.COMMAND_DATA, 0xB0)) = some 0 ∧
    display_height (sample_constants 8 2) = 2 ∧
    (display (sample_constants 8 2) [0x80, 0x01] 2 sample_world).map
        (fun after => wire 4 0 (emitted sample_world after)) ≠
      some (tagged_frame_sequence (sample_constants 8 2) [0x80, 0x01] 1 2) := by
  rw [display_some _ _ _ _ (by decide)]
  decide

/-- C3, amended. For every image that fills the frame, `display` returns, and sends the
set-page tag `0xB0` once, as the first byte of the call and before row 0, not once for each
row.  After the tag come `height` rows; row `j` begins with the two command-mode addressing
bytes `0x00 | (j & 0x0F)` and `0x10 | (j >> 4)`, and the rest of the row is `width` bytes at
the data level. -/
theorem display_row_structure (k : Constants) (byte_image : List (Fin 256)) (bytes : Nat)
    (w : World) (level : Nat)
    (hlen : display_width k * display_height k ≤ byte_image.length) :
    ∃ (after : World) (tag_level : Nat) (rows : List (List (Nat × Nat))),
      display k byte_image bytes w = some after ∧
      wire w.self.control_pin_ level (emitted w after) = (tag_level, 0xB0) :: rows.flatten ∧
      rows.length = display_height k ∧
      ∀ j, j < display_height k → ∃ data,
        rows[j]? = some
          ((k.to_underlying ControlPad.COMMAND_DATA, 0x00 ||| (j &&& 0x0F)) ::
           (k.to_underlying ControlPad.COMMAND_DATA, 0x10 ||| (j >>> 4)) :: data) ∧
        data.length = display_width k ∧
        ∀ d ∈ data, d.1 = k.to_underlying ControlPad.DISPLAY_DATA := by
  refine ⟨_, k.to_underlying ControlPad.DISPLAY_DATA,
    (List.range (display_height k)).map fun j =>
      [(k.to_underlying ControlPad.COMMAND_DATA, 0x00 ||| (j &&& 0x0F)),
       (k.to_underlying ControlPad.COMMAND_DATA, 0x10 ||| (j >>> 4))]
      ++ (List.range (display_width k)).map fun i =>
        (k.to_underlying ControlPad.DISPLAY_DATA,
          reflection (byte_image.getD (i + j * display_width k) 0).val),
    display_some k byte_image bytes w hlen, ?_, by simp, ?_⟩
  · rw [emitted_append, wire_display_events_frame, frame_sequence, List.flatMap_def]
  · intro j hj
    refine ⟨(List.range (display_width k)).map fun i =>
        (k.to_underlying ControlPad.DISPLAY_DATA,
          reflection (byte_image.getD (i + j * display_width k) 0).val), ?_, by simp, ?_⟩
    · rw [List.getElem?_map, List.getElem?_range hj]
      rfl
    · intro d hd
      obtain ⟨i, _, rfl⟩ := List.mem_map.mp hd
      rfl

/-- C3, amended, at a frame one byte wide and two rows high. -/
theorem display_row_structure_witness :
    ∃ (after : World) (tag_level : Nat) (rows : List (List (Nat × Nat))),
      display (sample_constants 8 2) [0x80, 0x01] 2 sample_world = some after ∧
      wire 4 0 (emitted sample_world after) = (tag_level, 0xB0) :: rows.flatten ∧
      rows.length = 2 ∧
      ∃ data, rows[1]? = some ((0, 0x01) :: (0, 0x10) :: data) ∧ data.length = 1 := by
  obtain ⟨after, tag_level, rows, h1, h2, h3, h4⟩ :=
    display_row_structure (sample_constants 8 2) [0x80, 0x01] 2 sample_world 0 (by decide)
  obtain ⟨data, h5, h6, _⟩ := h4 1 (by decide)
  exact ⟨after, tag_level, rows, h1, h2, h3, data, h5, h6⟩

/-- C5. For every buffer and every frame geometry with `width = ceil(SCREEN_WIDTH / 8)` and
`height = SCREEN_HEIGHT` both fitting in a byte, a call of `display` on a buffer of at least
`width * height` bytes returns, having read exactly the indices
`0, 1, ..., width * height - 1`, each once and in increasing order; every index
`i + j * width` with `i < width` and `j < height` is among them, not reduced modulo 256
although `i`, `j` and `width` are bytes.  On a shorter buffer the call reads outside the
buffer, so `display` stays inside the buffer if and only if the buffer holds at least
`width * height` bytes; with `width, height >= 1` it reads outside an empty buffer. -/
theorem display_reads_in_order (k : Constants) (byte_image : List (Fin 256)) (bytes : Nat)
    (w : World)
    (hW : (k.SCREEN_WIDTH + 7) / 8 < 256) (hH : k.SCREEN_HEIGHT < 256) :
    ((k.SCREEN_WIDTH + 7) / 8 * k.SCREEN_HEIGHT ≤ byte_image.length →
      ∃ after, display k byte_image bytes w = some after ∧
        reads (emitted w after) = List.range ((k.SCREEN_WIDTH + 7) / 8 * k.SCREEN_HEIGHT) ∧
        (reads (emitted w after)).length = (k.SCREEN_WIDTH + 7) / 8 * k.SCREEN_HEIGHT ∧
        ∀ i j, i < (k.SCREEN_WIDTH + 7) / 8 → j < k.SCREEN_HEIGHT →
          i + j * ((k.SCREEN_WIDTH + 7) / 8) ∈ reads (emitted w after)) ∧
    (byte_image.length < (k.SCREEN_WIDTH + 7) / 8 * k.SCREEN_HEIGHT →
      display k byte_image bytes w = none) ∧
    ((display k byte_image bytes w).isSome = true ↔
      (k.SCREEN_WIDTH + 7) / 8 * k.SCREEN_HEIGHT ≤ byte_image.length) ∧
    (1 ≤ (k.SCREEN_WIDTH + 7) / 8 → 1 ≤ k.SCREEN_HEIGHT → display k [] bytes w = none) := by
  have hw := display_width_eq k hW
  have hh := display_height_eq k hH
  refine ⟨?_, ?_, ?_, ?_⟩
  · intro hlen
    have hlen2 : display_width k * display_height k ≤ byte_image.length := by
      rw [hw, hh]; exact hlen
    refine ⟨_, display_some k byte_image bytes w hlen2, ?_⟩
    rw [emitted_append, reads_display_events, hw, hh]
    refine ⟨rfl, List.length_range _, ?_⟩
    intro i j hi hj
    exact List.mem_range.mpr (index_in_frame _ _ i j hi hj)
  · intro hlen
    exact display_none k byte_image bytes w (by rw [hw, hh]; exact hlen)
  · rcases Nat.lt_or_ge byte_image.length ((k.SCREEN_WIDTH + 7) / 8 * k.SCREEN_HEIGHT)
      with h | h
    · rw [display_none k byte_image bytes w (by rw [hw, hh]; exact h)]
      simp
      exact h
    · rw [display_some k byte_image bytes w (by rw [hw, hh]; exact h)]
      simp
      exact h
  · intro h1 h2
    refine display_none k [] bytes w ?_
    rw [hw, hh]
    exact Nat.mul_pos h1 h2

/-- C5, at three calls.  On a frame one byte wide and two rows high, the two-byte image is
read at the indices 0 and 1 in this order, and a one-byte buffer is read outside its
bounds.  On a frame of 64 by 128 pixels (8 bytes by 128 rows) a buffer of 1024 bytes is
read at the indices 0 to 1023, among them `7 + 127 * 8 = 1023`, which no byte holds, and a
buffer of 1023 bytes is read outside its bounds. -/
theorem display_reads_in_order_witness :
    (∃ after, display (sample_constants 8 2) [0x80, 0x01] 2 sample_world = some after ∧
      reads (emitted sample_world after) = [0, 1]) ∧
    display (sample_constants 8 2) [0x80] 1 sample_world = none ∧
    display (sample_constants 8 2) [] 0 sample_world = none ∧
    (∃ after, display (sample_constants 64 128) (List.replicate 1024 0) 1024 sample_world
        = some after ∧
      reads (emitted sample_world after) = List.range 1024 ∧
      7 + 127 * 8 ∈ reads (emitted sample_world after)) ∧
    display (sample_constants 64 128) (List.replicate 1023 0) 1023 sample_world = none := by
  refine ⟨?_, ?_, ?_, ?_, ?_⟩
  · obtain ⟨after, h1, h2, _, _⟩ :=
      (display_reads_in_order (sample_constants 8 2) [0x80, 0x01] 2 sample_world
        (by decide) (by decide)).1 (by decide)
    exact ⟨after, h1, h2⟩
  · exact (display_reads_in_order (sample_constants 8 2) [0x80] 1 sample_world
      (by decide) (by decide)).2.1 (by decide)
  · exact (display_reads_in_order (sample_constants 8 2) [] 0 sample_world
      (by decide) (by decide)).2.2.2 (by decide) (by decide)
  · obtain ⟨after, h1, h2, _, h4⟩ :=
      (display_reads_in_order (sample_constants 64 128) (List.replicate 1024 0) 1024
        sample_world (by decide) (by decide)).1 (by rw [List.length_replicate]; decide)
    exact ⟨after, h1, h2, h4 7 127 (by decide) (by decide)⟩
  · exact (display_reads_in_order (sample_constants 64 128) (List.replicate 1023 0) 1023
      sample_world (by decide) (by decide)).2.1 (by rw [List.length_replicate]; decide)

/-- C9. What `display` emits depends on the first `width * height` bytes of the image only:
two calls whose buffers agree there put the same bytes at the same levels on the bus,
whatever the `bytes` arguments, whatever the buffers hold further on, and whatever the two
driver objects (initialized or not) and their earlier logs are; with the same control line
the two calls emit the same events.  Each call leaves the driver object as it was. -/
theorem display_depends_on_frame_only (k : Constants) (image1 image2 : List (Fin 256))
    (bytes1 bytes2 : Nat) (w1 w2 : World) (level1 level2 : Nat)
    (h1 : display_width k * display_height k ≤ image1.length)
    (h2 : display_width k * display_height k ≤ image2.length)
    (hag : image1.take (display_width k * display_height k) =
      image2.take (display_width k * display_height k)) :
    ∃ after1 after2, display k image1 bytes1 w1 = some after1 ∧
      display k image2 bytes2 w2 = some after2 ∧
      wire w1.self.control_pin_ level1 (emitted w1 after1) =
        wire w2.self.control_pin_ level2 (emitted w2 after2) ∧
      (w1.self.control_pin_ = w2.self.control_pin_ →
        emitted w1 after1 = emitted w2 after2) ∧
      after1.self = w1.self ∧ after2.self = w2.self ∧
      after1.trace = w1.trace ++ emitted w1 after1 ∧
      after2.trace = w2.trace ++ emitted w2 after2 := by
  refine ⟨_, _, display_some k image1 bytes1 w1 h1, display_some k image2 bytes2 w2 h2,
    ?_, ?_, rfl, rfl, ?_, ?_⟩
  · rw [emitted_append, emitted_append, display_events_congr k w1.self image1 image2 hag,
      wire_display_events, wire_display_events]
  · intro hpin
    rw [emitted_append, emitted_append, display_events_congr k w1.self image1 image2 hag,
      display_events_pin k w1.self w2.self image2 hpin]
  · rw [emitted_append]
  · rw [emitted_append]

/-- C9, at two calls on a frame one byte wide and two rows high: a driver that is not
initialized, given the two-byte image and `bytes = 2`, and an initialized driver whose
control line is at the data level, given a longer buffer with the same first two bytes and
`bytes = 99`. -/
theorem display_depends_on_frame_only_witness :
    ∃ after1 after2,
      display (sample_constants 8 2) [0x80, 0x01] 2 sample_world = some after1 ∧
      display (sample_constants 8 2) [0x80, 0x01, 0xFF] 99 sample_world_initialized
        = some after2 ∧
      wire 4 0 (emitted sample_world after1) =
        wire 4 1 (emitted sample_world_initialized after2) ∧
      emitted sample_world after1 = emitted sample_world_initialized after2 ∧
      after1.self = sample_world.self ∧ after2.self = sample_world_initialized.self := by
  obtain ⟨after1, after2, h1, h2, h3, h4, h5, h6, _, _⟩ :=
    display_depends_on_frame_only (sample_constants 8 2) [0x80, 0x01] [0x80, 0x01, 0xFF]
      2 99 sample_world sample_world_initialized 0 1 (by decide) (by decide) (by decide)
  exact ⟨after1, after2, h1, h2, h3, h4 rfl, h5, h6⟩

/-! ## Bytes -/

/-- C7. For every 8-bit row index `j`, the two address bytes that `display` computes by
addition, `0x00 + (j & 0x0f)` and `0x10 + (j >> 4)`, equal the OR-combinations
`0x00 | (j & 0x0F)` and `0x10 | (j >> 4)`, are not altered by the narrowing to a byte, lie
in `0x00..0x0F` and `0x10..0x1F`, and give `j` back as
`((higher & 0x0F) << 4) | (lower & 0x0F)`. -/
theorem address_bytes (j : Nat) (hj : j < 256) :
    0x00 + (j &&& 0x0f) = 0x00 ||| (j &&& 0x0F) ∧
    0x10 + (j >>> 4) = 0x10 ||| (j >>> 4) ∧
    lower_address_byte j = 0x00 + (j &&& 0x0f) ∧
    higher_address_byte j = 0x10 + (j >>> 4) ∧
    lower_address_byte j ≤ 0x0F ∧
    0x10 ≤ higher_address_byte j ∧ higher_address_byte j ≤ 0x1F ∧
    ((higher_address_byte j &&& 0x0F) <<< 4) ||| (lower_address_byte j &&& 0x0F) = j := by
  have h : ∀ c : Fin 256,
      0x00 + (c.val &&& 0x0f) = 0x00 ||| (c.val &&& 0x0F) ∧
      0x10 + (c.val >>> 4) = 0x10 ||| (c.val >>> 4) ∧
      lower_address_byte c.val = 0x00 + (c.val &&& 0x0f) ∧
      higher_address_byte c.val = 0x10 + (c.val >>> 4) ∧
      lower_address_byte c.val ≤ 0x0F ∧
      0x10 ≤ higher_address_byte c.val ∧ higher_address_byte c.val ≤ 0x1F ∧
      ((higher_address_byte c.val &&& 0x0F) <<< 4) ||| (lower_address_byte c.val &&& 0x0F)
        = c.val := by
    set_option maxRecDepth 100000 in decide
  exact h ⟨j, hj⟩

/-- C7, at the row index `0x37`: the lower byte is `0x07`, the higher byte is `0x13`, and
the two give `0x37` back. -/
theorem address_bytes_witness :
    lower_address_byte 0x37 = 0x00 ||| (0x37 &&& 0x0F) ∧
    higher_address_byte 0x37 = 0x10 ||| (0x37 >>> 4) ∧
    lower_address_byte 0x37 = 0x07 ∧ higher_address_byte 0x37 = 0x13 ∧
    ((higher_address_byte 0x37 &&& 0x0F) <<< 4) ||| (lower_address_byte 0x37 &&& 0x0F)
      = 0x37 :=
  ⟨(address_bytes 0x37 (by decide)).2.2.1.trans (address_bytes 0x37 (by decide)).1,
   (address_bytes 0x37 (by decide)).2.2.2.1.trans (address_bytes 0x37 (by decide)).2.1,
   by decide, by decide, (address_bytes 0x37 (by decide)).2.2.2.2.2.2.2⟩

/-- C8. The bit reflection that `display` applies to each data byte, for which bit `n` of
the result is bit `7 - n` of the argument, is its own inverse on bytes:
`reflect(reflect(b)) = b` for every byte `b`.  So it is a bijection on bytes: the result is
a byte, no two bytes have the same result, and every byte is a result. -/
theorem reflection_involutive (b : Nat) (hb : b < 256) :
    reflection (reflection b) = b ∧
    reflection b < 256 ∧
    (∀ n, n < 8 → (reflection b >>> n) % 2 = (b >>> (7 - n)) % 2) ∧
    (∀ c, c < 256 → reflection b = reflection c → b = c) ∧
    (∃ a, a < 256 ∧ reflection a = b) := by
  have h : ∀ c : Fin 256,
      reflection (reflection c.val) = c.val ∧ reflection c.val < 256 ∧
      ∀ n : Fin 8, (reflection c.val >>> n.val) % 2 = (c.val >>> (7 - n.val)) % 2 := by
    set_option maxRecDepth 100000 in decide
  refine ⟨(h ⟨b, hb⟩).1, (h ⟨b, hb⟩).2.1, fun n hn => (h ⟨b, hb⟩).2.2 ⟨n, hn⟩, ?_,
    reflection b, (h ⟨b, hb⟩).2.1, (h ⟨b, hb⟩).1⟩
  intro c hc heq
  have h1 := (h ⟨b, hb⟩).1
  have h2 := (h ⟨c, hc⟩).1
  simp only [] at h1 h2
  rw [← h1, ← h2, heq]

/-- C8, at the byte `0b10000000`, whose reflection is `0b00000001`. -/
theorem reflection_involutive_witness :
    reflection 0x80 = 0x01 ∧ reflection (reflection 0x80) = 0x80 ∧ reflection 0x80 < 256 :=
  ⟨by decide, (reflection_involutive 0x80 (by decide)).1,
   (reflection_involutive 0x80 (by decide)).2.1⟩

end SH1107
